import Mathlib

/- Verification of the slang library (Option / Result / Atom, matchAll, the
   zip family, expect and the unwrap-else obligation) against its
   specification.  The definitions below are a shallow embedding of the
   TypeScript implementation: JavaScript values are modelled by the inductive
   type `JSVal` (numbers restricted to integers plus NaN and the two
   infinities, which covers every numeric value the library's behaviour
   distinguishes), thrown exceptions become `Except String`, and the fresh
   identity of `Symbol(...)` is modelled by an explicit allocation counter. -/

/-- Model of a JavaScript number: an integer, NaN, or one of the two
infinities.  The library only distinguishes NaN and the infinities from other
numbers, so restricting finite doubles to integers loses nothing the claims
talk about. -/
inductive JSNum where
  | finite (i : Int)
  | nan
  | posInf
  | negInf

/-- Model of a JavaScript value.  Arrays and plain objects carry their
contents so that empty containers are representable; symbols carry their
description together with a fresh allocation id. -/
inductive JSVal where
  | vnull
  | vundef
  | vnum (n : JSNum)
  | vstr (s : String)
  | vbool (b : Bool)
  | vsym (desc : String) (id : Nat)
  | varr (elems : List JSVal)
  | vobj (fields : List (String × JSVal))

/-- The test `value === undefined` used by `zip` for its `fillValue`. -/
def JSVal.isUndef : JSVal → Bool
  | .vundef => true
  | _ => false

/-- JavaScript `String(n)` on a number (integers print in decimal; the three
special values print as NaN, Infinity and -Infinity). -/
def jsNumToString : JSNum → String
  | .finite i => toString i
  | .nan => "NaN"
  | .posInf => "Infinity"
  | .negInf => "-Infinity"

/-- JavaScript `typeof`, used in the error message of `matchAll`. -/
def jsTypeof : JSVal → String
  | .vnull => "object"
  | .vundef => "undefined"
  | .vnum _ => "number"
  | .vstr _ => "string"
  | .vbool _ => "boolean"
  | .vsym _ _ => "symbol"
  | .varr _ => "object"
  | .vobj _ => "object"

mutual

/-- JavaScript `String(v)`: primitives print their canonical form, arrays
join their stringified elements with commas, plain objects print
"[object Object]", symbols print "Symbol(description)". -/
def jsToString : JSVal → String
  | .vnull => "null"
  | .vundef => "undefined"
  | .vnum n => jsNumToString n
  | .vstr s => s
  | .vbool b => if b then "true" else "false"
  | .vsym d _ => "Symbol(" ++ d ++ ")"
  | .varr xs => String.intercalate "," (jsToStringList xs)
  | .vobj _ => "[object Object]"

/-- Stringification of array elements for `jsToString` (inside a joined
array, null and undefined print as the empty string). -/
def jsToStringList : List JSVal → List String
  | [] => []
  | .vnull :: xs => "" :: jsToStringList xs
  | .vundef :: xs => "" :: jsToStringList xs
  | x :: xs => jsToString x :: jsToStringList xs

end

/-- The library's `isFalsy` classifier: null, undefined, the empty string,
NaN, +Infinity and -Infinity are the non-truthy values; everything else
(including 0, false and empty containers) is truthy. -/
def isFalsy : JSVal → Bool
  | .vnull => true
  | .vundef => true
  | .vstr s => s == ""
  | .vnum .nan => true
  | .vnum .posInf => true
  | .vnum .negInf => true
  | _ => false

/-- The Option tagged union of the library: Some carries a value, None
carries nothing. -/
inductive JsOption where
  | Some (value : JSVal)
  | None

/-- The `isSome` field of an Option value. -/
def JsOption.isSome : JsOption → Bool
  | .Some _ => true
  | .None => false

/-- The `isNone` field of an Option value. -/
def JsOption.isNone : JsOption → Bool
  | .Some _ => false
  | .None => true

/-- The `option(value)` constructor: None for non-truthy values, Some of the
value itself otherwise. -/
def option (value : JSVal) : JsOption :=
  if isFalsy value then JsOption.None else JsOption.Some value

theorem option_isNone_eq_isFalsy (v : JSVal) : (option v).isNone = isFalsy v := by
  unfold option
  by_cases h : isFalsy v <;> simp [h, JsOption.isNone]

/-- The Result tagged union of the library. -/
inductive JsResult where
  | Ok (value : JSVal)
  | Err (error : JSVal)

/-- The `formatError` helper of `Err`: a string payload is used verbatim, an
object carrying a `message` field contributes the string form of that field,
anything else falls back to the supplied default (or `String(e)` when no
default is given). -/
def formatError (e : JSVal) (fallback : Option String) : String :=
  match e with
  | .vstr s => s
  | .vobj fields =>
    match fields.lookup "message" with
    | some m => jsToString m
    | none => fallback.getD (jsToString e)
  | _ => fallback.getD (jsToString e)

/-- The `expect` method of an Option: the value for Some, otherwise a thrown
error with the provided message or the fixed default. -/
def optionExpect (o : JsOption) (msg : Option String) : Except String JSVal :=
  match o with
  | .Some v => .ok v
  | .None => .error (msg.getD "Expected Some, got None")

/-- The `expect` method of `Ok`: always returns the stored value, the message
argument is ignored. -/
def okExpect (value : JSVal) (msg : Option String) : Except String JSVal :=
  .ok value

/-- The `expect` method of `Err`: always throws, with the provided message or
the formatted error payload. -/
def errExpect (error : JSVal) (msg : Option String) : Except String JSVal :=
  .error (msg.getD (formatError error (some "Expected Ok, got Err")))

/-- A fallback argument for `else`: either a plain value, or a function
(`typeof fallback === "function"` distinguishes the two in the source). -/
inductive Fallback where
  | lit (v : JSVal)
  | fn (f : JSVal → JSVal)

/-- The `else` completion of `option(...).unwrap()`.  Returns the computed
result (a thrown error for a non-truthy fallback candidate on None) together
with the number of times the fallback function was invoked.  On Some the
stored value is returned before the fallback is touched; on None a function
fallback is invoked once with undefined, a literal is used directly, and the
candidate is required to be truthy by re-running it through `option`. -/
def optionUnwrapElse (o : JsOption) (fallback : Fallback) : Except String JSVal × Nat :=
  match o with
  | .Some v => (.ok v, 0)
  | .None =>
    let (result, calls) :=
      match fallback with
      | .fn f => (f JSVal.vundef, 1)
      | .lit v => (v, 0)
    let check := option result
    if check.isNone then (.error "Fallback must be truthy", calls)
    else (.ok result, calls)

/-- The `else` completion of a Result's `unwrap()`.  Ok returns the stored
value and ignores the fallback; Err invokes a function fallback once with the
stored error payload, or returns a literal fallback directly, with no
truthiness check.  The second component counts fallback invocations. -/
def resultUnwrapElse (r : JsResult) (fallback : Fallback) : JSVal × Nat :=
  match r with
  | .Ok v => (v, 0)
  | .Err e =>
    match fallback with
    | .fn f => (f e, 1)
    | .lit v => (v, 0)

/-- The variant on which `unwrap()` was called, for the deferred obligation
check. -/
inductive UnwrapKind where
  | optSome (v : JSVal)
  | optNone
  | resOk (v : JSVal)
  | resErr (e : JSVal)

/-- The transient obligation produced by `unwrap()`: the variant plus the
`handled` flag that `else` sets. -/
structure Obligation where
  kind : UnwrapKind
  handled : Bool

/-- Calling `unwrap()` creates the obligation with `handled = false` and
schedules the deferred check for the end of the synchronous turn. -/
def unwrapObligation (k : UnwrapKind) : Obligation :=
  { kind := k, handled := false }

/-- Invoking `else` synchronously sets the `handled` flag. -/
def invokeElse (ob : Obligation) : Obligation :=
  { ob with handled := true }

/-- The scheduled microtask, run after the synchronous turn: for an Option it
throws "Expected else" when `else` never ran; for Err it throws the formatted
error payload when `else` never ran; for Ok it never throws.  The returned
`Option String` is the message of the asynchronous failure, if any. -/
def deferredCheck (ob : Obligation) : Option String :=
  match ob.kind with
  | .optSome _ => if ob.handled then none else some "Expected else"
  | .optNone => if ob.handled then none else some "Expected else"
  | .resErr e =>
    if ob.handled then none
    else some (formatError e (some "Expected Ok, got Err"))
  | .resOk _ => none

/-- An atom value: the description string together with the fresh identity of
the underlying `Symbol(name)`. -/
structure AtomValue where
  description : String
  id : Nat

/-- The `atom(name)` constructor: `Symbol(name)` allocates a fresh, never
interned identity, modelled by an explicit allocation counter that every call
consumes and increments. -/
def atom (name : String) (state : Nat) : AtomValue × Nat :=
  ({ description := name, id := state }, state + 1)

/-- A value handled by the `_to` conversion: an Option, an atom symbol, or a
Result. -/
inductive SlangValue where
  | opt (o : JsOption)
  | sym (desc : String) (id : Nat)
  | res (r : JsResult)

/-- The `_to` conversion shared by Option and Atom.  Any Result input throws
first; otherwise the target selects the conversion.  `fresh` is the
allocation id consumed when a new atom is created by `atom(payload)`. -/
def _to (value : SlangValue) (target : String) (fresh : Nat) :
    Except String SlangValue :=
  match value with
  | .res _ => .error "Cannot convert a Result to any other type"
  | .opt o =>
    if target = "option" then .ok (.opt o)
    else if target = "atom" then
      match o with
      | .None => .error "Cannot convert None to Atom"
      | .Some (.vstr s) => .ok (.sym s fresh)
      | .Some _ => .error "Only string values can be converted to Atom"
    else if target = "result" then
      match o with
      | .Some v => .ok (.res (.Ok v))
      | .None => .ok (.res (.Err (.vstr "Value is None")))
    else .error ("Invalid target: " ++ target)
  | .sym d i =>
    if target = "option" then .ok (.opt (option (.vstr d)))
    else if target = "atom" then .ok (.sym d i)
    else if target = "result" then .ok (.res (.Ok (.vstr d)))
    else .error ("Invalid target: " ++ target)

/-- The patterns object of `matchAll`: keyed handlers (own properties) plus
the mandatory underscore default handler, which the TypeScript type
`MatchPatterns` requires. -/
structure MatchPatterns (R : Type) where
  entries : List (String × (JSVal → R))
  dflt : Unit → R

/-- Key derivation of `matchAll`: strings use their literal value, numbers
and booleans are stringified, atoms use their description; every other type
is unsupported (the runtime key check fails). -/
def derivedKey : JSVal → Option String
  | .vstr s => some s
  | .vnum n => some (jsNumToString n)
  | .vbool b => some (if b then "true" else "false")
  | .vsym d _ => some d
  | _ => none

/-- The `matchAll` dispatcher: unsupported value types throw; otherwise the
handler stored under the derived key is invoked with the original value, and
the underscore default is invoked when no entry matches. -/
def matchAll {R : Type} (value : JSVal) (patterns : MatchPatterns R) :
    Except String R :=
  match derivedKey value with
  | none => .error ("Unsupported match all value type: " ++ jsTypeof value)
  | some key =>
    match patterns.entries.lookup key with
    | some handler => .ok (handler value)
    | none => .ok (patterns.dflt ())

/-- JavaScript `Math.min(...lengths)` over the (always nonempty) spread of
input lengths in `zip`; the nil case is unreachable because empty inputs are
returned early. -/
def listMin : List Nat → Nat
  | [] => 0
  | [x] => x
  | x :: xs => min x (listMin xs)

/-- JavaScript `Math.max(...lengths)` over the nonempty spread of input
lengths in `zip`. -/
def listMax : List Nat → Nat
  | [] => 0
  | x :: xs => max x (listMax xs)

/-- The `zip` transpose.  `options` models the `fillValue` property of the
options object: `none` is an absent options object or absent key, `some fv`
is `{fillValue: fv}` (where `fv` may itself be undefined, which the
destructuring collapses to the absent case).  Inputs are modelled as arrays,
the only collection kind the default `includeValues = false` path accepts
(`toArray` is the identity on arrays). -/
def zip (inputs : List (List JSVal)) (options : Option JSVal) :
    List (List JSVal) :=
  let fillValue := options.getD JSVal.vundef
  if inputs.length = 0 then []
  else
    let lengths := inputs.map List.length
    let maxLength := listMax lengths
    let minLength := listMin lengths
    let length := if fillValue.isUndef then minLength else maxLength
    (List.range length).map fun i =>
      inputs.map fun a =>
        if i < a.length then a.getD i JSVal.vundef else fillValue

/-- The `zipWith` combinator: `zip` followed by mapping each row through the
transform. -/
def zipWith {R : Type} (inputs : List (List JSVal)) (fn : List JSVal → R)
    (options : Option JSVal) : List R :=
  (zip inputs options).map fn

/-- The `unzip` transpose: column `i`, for `i` below the first row's length,
collects the `i`-th element of every row that has one (the imperative
`tuple.forEach` + `result[i]?.push(v)` loop collects exactly the rows whose
length exceeds `i`, in row order). -/
def unzip (zipped : List (List JSVal)) : List (List JSVal) :=
  if zipped.length = 0 then []
  else
    let length := (zipped.headD []).length
    (List.range length).map fun i =>
      zipped.filterMap fun row => row[i]?

/- Claim-side predicates and helper lemmas. -/

/-- The row count chosen by `zip`: the shortest input length when the
(destructured) fillValue is undefined, the longest otherwise. -/
def zipLen (inputs : List (List JSVal)) (options : Option JSVal) : Nat :=
  if (options.getD JSVal.vundef).isUndef then listMin (inputs.map List.length)
  else listMax (inputs.map List.length)

theorem listMin_cons_cons (a b : Nat) (t : List Nat) :
    listMin (a :: b :: t) = min a (listMin (b :: t)) := rfl

theorem listMin_le_of_mem {l : List Nat} {x : Nat} (h : x ∈ l) :
    listMin l ≤ x := by
  induction l with
  | nil => cases h
  | cons a t ih =>
    cases t with
    | nil =>
      rcases List.mem_cons.mp h with h1 | h1
      · subst h1; simp [listMin]
      · cases h1
    | cons b t2 =>
      rw [listMin_cons_cons]
      rcases List.mem_cons.mp h with h1 | h1
      · subst h1; exact min_le_left _ _
      · exact le_trans (min_le_right _ _) (ih h1)

theorem zip_eq_rows (inputs : List (List JSVal)) (options : Option JSVal)
    (h : inputs ≠ []) :
    zip inputs options =
      (List.range (zipLen inputs options)).map fun i =>
        inputs.map fun a =>
          if i < a.length then a.getD i JSVal.vundef
          else options.getD JSVal.vundef := by
  have h0 : ¬ inputs.length = 0 := fun hh => h (List.length_eq_zero.mp hh)
  simp only [zip, zipLen, h0, if_false]

theorem zip_length (inputs : List (List JSVal)) (options : Option JSVal)
    (h : inputs ≠ []) :
    (zip inputs options).length = zipLen inputs options := by
  rw [zip_eq_rows inputs options h]
  simp

theorem inputs_ne_nil_of_lt_zip_length {inputs : List (List JSVal)}
    {options : Option JSVal} {i : Nat}
    (h : i < (zip inputs options).length) : inputs ≠ [] := by
  intro he
  subst he
  simp [zip] at h

theorem zip_row (inputs : List (List JSVal)) (options : Option JSVal) (i : Nat)
    (h : i < (zip inputs options).length) :
    (zip inputs options).getD i [] =
      inputs.map fun a =>
        if i < a.length then a.getD i JSVal.vundef
        else options.getD JSVal.vundef := by
  have hne := inputs_ne_nil_of_lt_zip_length h
  rw [zip_eq_rows inputs options hne] at h ⊢
  rw [List.getD_eq_getElem?_getD, List.getElem?_eq_getElem h]
  simp

theorem zip_entry (inputs : List (List JSVal)) (options : Option JSVal)
    (i j : Nat) (hi : i < (zip inputs options).length)
    (hj : j < inputs.length) :
    ((zip inputs options).getD i []).getD j JSVal.vundef =
      (if i < (inputs.getD j []).length
       then (inputs.getD j []).getD i JSVal.vundef
       else options.getD JSVal.vundef) := by
  rw [zip_row inputs options i hi]
  rw [List.getD_eq_getElem?_getD inputs j, List.getElem?_eq_getElem hj,
    Option.getD_some]
  have hj2 : j < (inputs.map fun a =>
      if i < a.length then a.getD i JSVal.vundef
      else options.getD JSVal.vundef).length := by simpa using hj
  rw [List.getD_eq_getElem?_getD, List.getElem?_eq_getElem hj2]
  simp

theorem lt_length_of_lt_zip_none_length (inputs : List (List JSVal))
    (i j : Nat) (hi : i < (zip inputs none).length)
    (hj : j < inputs.length) : i < (inputs.getD j []).length := by
  have hne := inputs_ne_nil_of_lt_zip_length hi
  rw [zip_length _ _ hne] at hi
  have hz : zipLen inputs none = listMin (inputs.map List.length) := rfl
  rw [hz] at hi
  have hmem : (inputs.getD j []).length ∈ inputs.map List.length := by
    rw [List.getD_eq_getElem?_getD, List.getElem?_eq_getElem hj,
      Option.getD_some]
    exact List.mem_map.mpr ⟨inputs[j], List.getElem_mem hj, rfl⟩
  exact Nat.lt_of_lt_of_le hi (listMin_le_of_mem hmem)

theorem filterMap_some_eq_map {α β : Type} (f : α → β) (l : List α) :
    l.filterMap (fun a => some (f a)) = l.map f := by
  induction l with
  | nil => rfl
  | cons a t ih => simp [List.filterMap_cons, ih]

theorem range_map_getD_eq_take (A : List JSVal) (m : Nat) (h : m ≤ A.length) :
    (List.range m).map (fun i => A.getD i JSVal.vundef) = A.take m := by
  apply List.ext_getElem
  · simp [Nat.min_eq_left h]
  · intro i h1 h2
    have hi : i < A.length := by
      simp only [List.length_map, List.length_range] at h1
      exact Nat.lt_of_lt_of_le h1 h
    simp [List.getD_eq_getElem?_getD, List.getElem?_eq_getElem hi]

/-- The specification's list of non-truthy values, stated as a predicate on
the value rather than via the implementation's boolean classifier. -/
def isFalsySpec (v : JSVal) : Prop :=
  v = .vnull ∨ v = .vundef ∨ v = .vstr "" ∨
    v = .vnum .nan ∨ v = .vnum .posInf ∨ v = .vnum .negInf

theorem isFalsy_iff_spec (v : JSVal) : isFalsy v = true ↔ isFalsySpec v := by
  cases v with
  | vnum n => cases n <;> simp [isFalsy, isFalsySpec]
  | vstr s => simp [isFalsy, isFalsySpec]
  | _ => simp [isFalsy, isFalsySpec]

/-- C1: for every value v, option(v) is None exactly when v is null,
undefined, the empty string, NaN, +Infinity or -Infinity; every other v
(including 0, false, empty arrays and empty objects) yields Some holding v
itself, unchanged. -/
theorem c1_option_classification (v : JSVal) :
    (option v = JsOption.None ↔ isFalsySpec v) ∧
    (¬ isFalsySpec v → option v = JsOption.Some v) := by
  constructor
  · rw [← isFalsy_iff_spec]
    unfold option
    by_cases h : isFalsy v <;> simp [h]
  · intro h
    rw [← isFalsy_iff_spec] at h
    simp only [Bool.not_eq_true] at h
    simp [option, h]

theorem c1_option_classification_witness :
    ¬ isFalsySpec (JSVal.vbool false) ∧
      option (JSVal.vbool false) = JsOption.Some (JSVal.vbool false) :=
  ⟨by simp [isFalsySpec], (c1_option_classification (JSVal.vbool false)).2
    (by simp [isFalsySpec])⟩

/-- C2: else on Some returns the wrapped value and never invokes the
fallback; on None a function fallback is invoked once with undefined (a
literal is used directly) and the candidate is returned when truthy but
raises "Fallback must be truthy" when non-truthy; on Err a function fallback
is invoked once with the error payload (a literal is returned directly) with
no truthiness check; on Ok the stored value is returned and the fallback is
ignored. -/
theorem c2_unwrap_else_contract :
    (∀ v fb, optionUnwrapElse (JsOption.Some v) fb = (Except.ok v, 0)) ∧
    (∀ f, optionUnwrapElse JsOption.None (Fallback.fn f) =
      (if isFalsy (f JSVal.vundef) then Except.error "Fallback must be truthy"
       else Except.ok (f JSVal.vundef), 1)) ∧
    (∀ v, optionUnwrapElse JsOption.None (Fallback.lit v) =
      (if isFalsy v then Except.error "Fallback must be truthy"
       else Except.ok v, 0)) ∧
    (∀ v fb, resultUnwrapElse (JsResult.Ok v) fb = (v, 0)) ∧
    (∀ e f, resultUnwrapElse (JsResult.Err e) (Fallback.fn f) = (f e, 1)) ∧
    (∀ e v, resultUnwrapElse (JsResult.Err e) (Fallback.lit v) = (v, 0)) := by
  refine ⟨fun v fb => rfl, fun f => ?_, fun v => ?_,
    fun v fb => rfl, fun e f => rfl, fun e v => rfl⟩
  · simp only [optionUnwrapElse, option]
    by_cases h : isFalsy (f JSVal.vundef) <;> simp [h, JsOption.isNone]
  · simp only [optionUnwrapElse, option]
    by_cases h : isFalsy v <;> simp [h, JsOption.isNone]

/-- C3: the deferred obligation check raises "Expected else" for any Option
(Some or None alike) whose else never ran before the turn ended, raises the
formatted error message for an unhandled Err, never raises for Ok, and
raises nothing when else was invoked before the check runs. -/
theorem c3_deferred_obligation :
    (∀ v, deferredCheck (unwrapObligation (UnwrapKind.optSome v)) =
      some "Expected else") ∧
    (deferredCheck (unwrapObligation UnwrapKind.optNone) =
      some "Expected else") ∧
    (∀ e, deferredCheck (unwrapObligation (UnwrapKind.resErr e)) =
      some (formatError e (some "Expected Ok, got Err"))) ∧
    (∀ v, deferredCheck (unwrapObligation (UnwrapKind.resOk v)) = none) ∧
    (∀ ob, deferredCheck (invokeElse ob) = none) := by
  refine ⟨fun v => rfl, rfl, fun e => rfl, fun v => rfl, fun ob => ?_⟩
  cases ob with
  | mk k h => cases k <;> rfl

/-- C4: key derivation of matchAll is the literal string for strings, the
stringification for numbers and booleans, and the description for atoms; a
pattern entry for the derived key is invoked with the original unconverted
value, otherwise the mandatory underscore handler is invoked; every other
value type raises the unsupported-type error. -/
theorem c4_matchAll_dispatch :
    (∀ s, derivedKey (JSVal.vstr s) = some s) ∧
    (∀ n, derivedKey (JSVal.vnum n) = some (jsNumToString n)) ∧
    (∀ b, derivedKey (JSVal.vbool b) =
      some (if b then "true" else "false")) ∧
    (∀ d i, derivedKey (JSVal.vsym d i) = some d) ∧
    (∀ (R : Type) v (ps : MatchPatterns R) k h, derivedKey v = some k →
      ps.entries.lookup k = some h → matchAll v ps = Except.ok (h v)) ∧
    (∀ (R : Type) v (ps : MatchPatterns R) k, derivedKey v = some k →
      ps.entries.lookup k = none → matchAll v ps = Except.ok (ps.dflt ())) ∧
    (∀ (R : Type) v (ps : MatchPatterns R), derivedKey v = none →
      matchAll v ps =
        Except.error ("Unsupported match all value type: " ++ jsTypeof v)) ∧
    (derivedKey JSVal.vnull = none) ∧
    (derivedKey JSVal.vundef = none) ∧
    (∀ xs, derivedKey (JSVal.varr xs) = none) ∧
    (∀ fs, derivedKey (JSVal.vobj fs) = none) := by
  refine ⟨fun s => rfl, fun n => rfl, fun b => rfl, fun d i => rfl,
    ?_, ?_, ?_, rfl, rfl, fun xs => rfl, fun fs => rfl⟩
  · intro R v ps k h hk hl
    simp [matchAll, hk, hl]
  · intro R v ps k hk hl
    simp [matchAll, hk, hl]
  · intro R v ps hk
    simp [matchAll, hk]

/-- A concrete patterns object used to witness the matchAll dispatch
theorem. -/
def witnessPatterns : MatchPatterns Nat :=
  { entries := [("ready", fun _ => 1)], dflt := fun _ => 0 }

theorem c4_matchAll_dispatch_witness :
    derivedKey (JSVal.vsym "ready" 7) = some "ready" ∧
    witnessPatterns.entries.lookup "ready" = some (fun _ => 1) ∧
    matchAll (JSVal.vsym "ready" 7) witnessPatterns = Except.ok 1 ∧
    witnessPatterns.entries.lookup "999" = none ∧
    matchAll (JSVal.vnum (JSNum.finite 999)) witnessPatterns = Except.ok 0 ∧
    derivedKey (JSVal.vobj []) = none ∧
    matchAll (JSVal.vobj []) witnessPatterns =
      Except.error "Unsupported match all value type: object" :=
  ⟨rfl, rfl,
   c4_matchAll_dispatch.2.2.2.2.1 Nat (JSVal.vsym "ready" 7)
     witnessPatterns "ready" (fun _ => 1) rfl rfl,
   rfl,
   c4_matchAll_dispatch.2.2.2.2.2.1 Nat (JSVal.vnum (JSNum.finite 999))
     witnessPatterns "999" rfl rfl,
   rfl,
   c4_matchAll_dispatch.2.2.2.2.2.2.1 Nat (JSVal.vobj [])
     witnessPatterns rfl⟩

/-- C7 counterexample: the claim says converting an Atom to an Option yields
Some of its description, but the atom whose description is the empty string
converts to None, because the implementation routes the description through
the truthiness-classifying option constructor. -/
theorem c7_to_conversion_counterexample :
    _to (SlangValue.sym "" 0) "option" 0 =
      Except.ok (SlangValue.opt JsOption.None) ∧
    SlangValue.opt JsOption.None ≠
      SlangValue.opt (JsOption.Some (JSVal.vstr "")) := by
  refine ⟨rfl, ?_⟩
  intro h
  injection h with h2
  exact JsOption.noConfusion h2

/-- C7 as amended: the conversion table holds with one change — on an Atom,
to("option") yields option(description): Some of the description when the
description is non-empty, None for the empty description.  Everything else is
as the claim states: Result converts to nothing; on an Option, to("option")
is the identity, to("atom") turns Some of a string into an Atom carrying the
payload, fails with "Cannot convert None to Atom" on None and fails on a
non-string payload, and to("result") yields Ok(value) for Some and
Err("Value is None") for None; on an Atom, to("atom") is the identity and
to("result") yields Ok(description). -/
theorem c7_to_conversion :
    (∀ r target fresh, _to (SlangValue.res r) target fresh =
      Except.error "Cannot convert a Result to any other type") ∧
    (∀ o fresh, _to (SlangValue.opt o) "option" fresh =
      Except.ok (SlangValue.opt o)) ∧
    (∀ s fresh,
      _to (SlangValue.opt (JsOption.Some (JSVal.vstr s))) "atom" fresh =
        Except.ok (SlangValue.sym s fresh)) ∧
    (∀ fresh, _to (SlangValue.opt JsOption.None) "atom" fresh =
      Except.error "Cannot convert None to Atom") ∧
    (∀ v fresh, jsTypeof v ≠ "string" →
      _to (SlangValue.opt (JsOption.Some v)) "atom" fresh =
        Except.error "Only string values can be converted to Atom") ∧
    (∀ v fresh, _to (SlangValue.opt (JsOption.Some v)) "result" fresh =
      Except.ok (SlangValue.res (JsResult.Ok v))) ∧
    (∀ fresh, _to (SlangValue.opt JsOption.None) "result" fresh =
      Except.ok (SlangValue.res (JsResult.Err (JSVal.vstr "Value is None")))) ∧
    (∀ d i fresh, _to (SlangValue.sym d i) "option" fresh =
      Except.ok (SlangValue.opt (option (JSVal.vstr d)))) ∧
    (∀ d i fresh, _to (SlangValue.sym d i) "atom" fresh =
      Except.ok (SlangValue.sym d i)) ∧
    (∀ d i fresh, _to (SlangValue.sym d i) "result" fresh =
      Except.ok (SlangValue.res (JsResult.Ok (JSVal.vstr d)))) := by
  refine ⟨fun r target fresh => rfl, fun o fresh => rfl, fun s fresh => rfl,
    fun fresh => rfl, ?_, fun v fresh => rfl, fun fresh => rfl,
    fun d i fresh => rfl, fun d i fresh => rfl, fun d i fresh => rfl⟩
  intro v fresh h
  cases v <;> first
  | rfl
  | exact absurd rfl h

theorem c7_to_conversion_witness :
    jsTypeof (JSVal.vnum (JSNum.finite 1)) ≠ "string" ∧
    _to (SlangValue.opt (JsOption.Some (JSVal.vnum (JSNum.finite 1))))
        "atom" 0 =
      Except.error "Only string values can be converted to Atom" :=
  ⟨by decide,
   c7_to_conversion.2.2.2.2.1 (JSVal.vnum (JSNum.finite 1)) 0 (by decide)⟩

/-- The runtime test `e && typeof e === "object" && "message" in e` of
formatError, as a boolean discriminator. -/
def hasMessageField : JSVal → Bool
  | .vobj fields => (fields.lookup "message").isSome
  | _ => false

/-- C8: expect on Some or Ok returns the stored payload; on None it fails
with the provided message, else "Expected Some, got None"; on Err it fails
with the provided message, else with a string payload verbatim, else with
the string form of an object payload's message field, else with
"Expected Ok, got Err". -/
theorem c8_expect_contract :
    (∀ v m, optionExpect (JsOption.Some v) m = Except.ok v) ∧
    (∀ s, optionExpect JsOption.None (some s) = Except.error s) ∧
    (optionExpect JsOption.None none =
      Except.error "Expected Some, got None") ∧
    (∀ v m, okExpect v m = Except.ok v) ∧
    (∀ e s, errExpect e (some s) = Except.error s) ∧
    (∀ s, errExpect (JSVal.vstr s) none = Except.error s) ∧
    (∀ fields m, fields.lookup "message" = some m →
      errExpect (JSVal.vobj fields) none =
        Except.error (jsToString m)) ∧
    (∀ e, jsTypeof e ≠ "string" → hasMessageField e = false →
      errExpect e none = Except.error "Expected Ok, got Err") := by
  refine ⟨fun v m => rfl, fun s => rfl, rfl, fun v m => rfl,
    fun e s => rfl, fun s => rfl, ?_, ?_⟩
  · intro fields m hm
    simp [errExpect, formatError, hm]
  · intro e hstr hmsg
    cases e with
    | vstr s => exact absurd rfl hstr
    | vobj fields =>
      simp only [hasMessageField] at hmsg
      cases hl : fields.lookup "message" with
      | none => simp [errExpect, formatError, hl]
      | some m => rw [hl] at hmsg; simp at hmsg
    | _ => rfl

theorem c8_expect_contract_witness :
    List.lookup "message"
        [("message", JSVal.vnum (JSNum.finite 5))] =
      some (JSVal.vnum (JSNum.finite 5)) ∧
    errExpect (JSVal.vobj [("message", JSVal.vnum (JSNum.finite 5))]) none =
      Except.error (jsToString (JSVal.vnum (JSNum.finite 5))) ∧
    jsToString (JSVal.vnum (JSNum.finite 5)) = "5" ∧
    jsTypeof (JSVal.vnum (JSNum.finite 42)) ≠ "string" ∧
    hasMessageField (JSVal.vnum (JSNum.finite 42)) = false ∧
    errExpect (JSVal.vnum (JSNum.finite 42)) none =
      Except.error "Expected Ok, got Err" :=
  ⟨rfl,
   c8_expect_contract.2.2.2.2.2.2.1
     [("message", JSVal.vnum (JSNum.finite 5))]
     (JSVal.vnum (JSNum.finite 5)) rfl,
   rfl,
   by decide,
   rfl,
   c8_expect_contract.2.2.2.2.2.2.2
     (JSVal.vnum (JSNum.finite 42)) (by decide) rfl⟩

/-- C9: two separate calls of atom(d) allocate distinct identities, both
carrying description d; identity comes from the allocation counter, never
from a description cache. -/
theorem c9_atom_freshness (d : String) (s : Nat) :
    ((atom d s).1).description = d ∧
    ((atom d (atom d s).2).1).description = d ∧
    (atom d s).1 ≠ (atom d (atom d s).2).1 := by
  refine ⟨rfl, rfl, ?_⟩
  simp [atom]

/-- C5: zip of an empty inputs list is empty; without a fillValue the row
count is the shortest input's length (and every row entry is in bounds, so
longer inputs are truncated, never filled); with a defined fillValue the row
count is the longest input's length; row i holds, at position j, the i-th
element of input j when input j is long enough and the fillValue otherwise,
in input order. -/
theorem c5_zip_rows :
    (∀ options, zip [] options = []) ∧
    (∀ inputs, inputs ≠ [] →
      (zip inputs none).length = listMin (inputs.map List.length)) ∧
    (∀ inputs fv, inputs ≠ [] → fv.isUndef = false →
      (zip inputs (some fv)).length = listMax (inputs.map List.length)) ∧
    (∀ inputs options i, i < (zip inputs options).length →
      ((zip inputs options).getD i []).length = inputs.length) ∧
    (∀ inputs options i j, i < (zip inputs options).length →
      j < inputs.length →
      ((zip inputs options).getD i []).getD j JSVal.vundef =
        (if i < (inputs.getD j []).length
         then (inputs.getD j []).getD i JSVal.vundef
         else options.getD JSVal.vundef)) ∧
    (∀ inputs i j, i < (zip inputs none).length → j < inputs.length →
      i < (inputs.getD j []).length) := by
  refine ⟨fun options => rfl, ?_, ?_, ?_, ?_, ?_⟩
  · intro inputs h
    rw [zip_length inputs none h]
    rfl
  · intro inputs fv h hfv
    rw [zip_length inputs (some fv) h]
    simp [zipLen, hfv]
  · intro inputs options i hi
    rw [zip_row inputs options i hi]
    simp
  · intro inputs options i j hi hj
    exact zip_entry inputs options i j hi hj
  · intro inputs i j hi hj
    exact lt_length_of_lt_zip_none_length inputs i j hi hj

/-- Concrete inputs for the zip witnesses: the spec example
zip([[1,2,3],[10,20]], { fillValue: 0 }). -/
def witnessInputs : List (List JSVal) :=
  [[JSVal.vnum (JSNum.finite 1), JSVal.vnum (JSNum.finite 2),
    JSVal.vnum (JSNum.finite 3)],
   [JSVal.vnum (JSNum.finite 10), JSVal.vnum (JSNum.finite 20)]]

theorem c5_zip_rows_witness :
    witnessInputs ≠ [] ∧
    (zip witnessInputs none).length =
      listMin (witnessInputs.map List.length) ∧
    (JSVal.vnum (JSNum.finite 0)).isUndef = false ∧
    (zip witnessInputs (some (JSVal.vnum (JSNum.finite 0)))).length =
      listMax (witnessInputs.map List.length) ∧
    (2 : Nat) < (zip witnessInputs (some (JSVal.vnum (JSNum.finite 0)))).length ∧
    (1 : Nat) < witnessInputs.length ∧
    ((zip witnessInputs (some (JSVal.vnum (JSNum.finite 0)))).getD 2 []).getD
        1 JSVal.vundef =
      (if 2 < (witnessInputs.getD 1 []).length
       then (witnessInputs.getD 1 []).getD 2 JSVal.vundef
       else (some (JSVal.vnum (JSNum.finite 0))).getD JSVal.vundef) ∧
    (0 : Nat) < (zip witnessInputs none).length ∧
    ((zip witnessInputs none).getD 0 []).length = witnessInputs.length ∧
    (0 : Nat) < (witnessInputs.getD 1 []).length :=
  ⟨by simp [witnessInputs],
   c5_zip_rows.2.1 witnessInputs (by simp [witnessInputs]),
   rfl,
   c5_zip_rows.2.2.1 witnessInputs (JSVal.vnum (JSNum.finite 0))
     (by simp [witnessInputs]) rfl,
   by decide,
   by decide,
   c5_zip_rows.2.2.2.2.1 witnessInputs (some (JSVal.vnum (JSNum.finite 0)))
     2 1 (by decide) (by decide),
   by decide,
   c5_zip_rows.2.2.2.1 witnessInputs none 0 (by decide),
   c5_zip_rows.2.2.2.2.2 witnessInputs 0 1 (by decide) (by decide)⟩

/-- C6 counterexample: when one input is empty, zip produces no rows, so
unzip of the result is the empty list rather than the claimed pair of empty
arrays. -/
theorem c6_roundtrip_counterexample :
    unzip (zip [[JSVal.vnum (JSNum.finite 1)], []] none) = [] ∧
    ([] : List (List JSVal)) ≠
      [List.take (min (List.length [JSVal.vnum (JSNum.finite 1)])
          (List.length ([] : List JSVal))) [JSVal.vnum (JSNum.finite 1)],
       List.take (min (List.length [JSVal.vnum (JSNum.finite 1)])
          (List.length ([] : List JSVal))) ([] : List JSVal)] := by
  refine ⟨rfl, ?_⟩
  intro h
  exact List.noConfusion h

/-- C6 as amended: for arrays A and B that are both non-empty (so that the
shared prefix length min(len A)(len B) is positive), unzip of zip [A, B]
without a fillValue reconstructs the two prefixes A.take m and B.take m with
m = min(len A)(len B).  When one input is empty, zip has no rows and unzip
returns the empty list instead of two empty columns. -/
theorem c6_zip_unzip_roundtrip (A B : List JSVal)
    (h : 0 < min A.length B.length) :
    unzip (zip [A, B] none) =
      [A.take (min A.length B.length), B.take (min A.length B.length)] := by
  have hmA : min A.length B.length ≤ A.length := Nat.min_le_left _ _
  have hmB : min A.length B.length ≤ B.length := Nat.min_le_right _ _
  have hlen : zipLen [A, B] none = min A.length B.length := rfl
  have hrows : zip [A, B] none =
      (List.range (min A.length B.length)).map fun i =>
        [A.getD i JSVal.vundef, B.getD i JSVal.vundef] := by
    rw [zip_eq_rows [A, B] none (by simp), hlen]
    apply List.map_congr_left
    intro i hi
    rw [List.mem_range] at hi
    simp [Nat.lt_of_lt_of_le hi hmA, Nat.lt_of_lt_of_le hi hmB]
  rw [hrows]
  have hne2 : ¬ (((List.range (min A.length B.length)).map fun i =>
      [A.getD i JSVal.vundef, B.getD i JSVal.vundef]).length = 0) := by
    simp only [List.length_map, List.length_range]
    omega
  simp only [unzip, hne2, if_false]
  have h0 : 0 < ((List.range (min A.length B.length)).map fun i =>
      [A.getD i JSVal.vundef, B.getD i JSVal.vundef]).length := by
    simp only [List.length_map, List.length_range]
    omega
  have hhead : ((List.range (min A.length B.length)).map fun i =>
      [A.getD i JSVal.vundef, B.getD i JSVal.vundef]).headD [] =
      [A.getD 0 JSVal.vundef, B.getD 0 JSVal.vundef] := by
    rw [List.headD_eq_head?_getD, List.head?_eq_getElem?,
      List.getElem?_eq_getElem h0]
    simp
  rw [hhead]
  have hr2 : List.range (List.length
      [A.getD 0 JSVal.vundef, B.getD 0 JSVal.vundef]) = [0, 1] := rfl
  rw [hr2]
  simp only [List.map_cons, List.map_nil]
  have hcolA : ((List.range (min A.length B.length)).map fun i =>
      [A.getD i JSVal.vundef, B.getD i JSVal.vundef]).filterMap
        (fun row => row[0]?) = A.take (min A.length B.length) := by
    rw [List.filterMap_map]
    have hc : ((fun row => row[0]?) ∘ fun i =>
        [A.getD i JSVal.vundef, B.getD i JSVal.vundef]) =
        fun i => some (A.getD i JSVal.vundef) := rfl
    rw [hc, filterMap_some_eq_map,
      range_map_getD_eq_take A (min A.length B.length) hmA]
  have hcolB : ((List.range (min A.length B.length)).map fun i =>
      [A.getD i JSVal.vundef, B.getD i JSVal.vundef]).filterMap
        (fun row => row[1]?) = B.take (min A.length B.length) := by
    rw [List.filterMap_map]
    have hc : ((fun row => row[1]?) ∘ fun i =>
        [A.getD i JSVal.vundef, B.getD i JSVal.vundef]) =
        fun i => some (B.getD i JSVal.vundef) := rfl
    rw [hc, filterMap_some_eq_map,
      range_map_getD_eq_take B (min A.length B.length) hmB]
  rw [hcolA, hcolB]

theorem c6_zip_unzip_roundtrip_witness :
    0 < min (List.length [JSVal.vnum (JSNum.finite 1),
        JSVal.vnum (JSNum.finite 2), JSVal.vnum (JSNum.finite 3)])
      (List.length [JSVal.vnum (JSNum.finite 4),
        JSVal.vnum (JSNum.finite 5)]) ∧
    unzip (zip [[JSVal.vnum (JSNum.finite 1), JSVal.vnum (JSNum.finite 2),
        JSVal.vnum (JSNum.finite 3)],
      [JSVal.vnum (JSNum.finite 4), JSVal.vnum (JSNum.finite 5)]] none) =
      [List.take (min (List.length [JSVal.vnum (JSNum.finite 1),
          JSVal.vnum (JSNum.finite 2), JSVal.vnum (JSNum.finite 3)])
        (List.length [JSVal.vnum (JSNum.finite 4),
          JSVal.vnum (JSNum.finite 5)]))
        [JSVal.vnum (JSNum.finite 1), JSVal.vnum (JSNum.finite 2),
          JSVal.vnum (JSNum.finite 3)],
       List.take (min (List.length [JSVal.vnum (JSNum.finite 1),
          JSVal.vnum (JSNum.finite 2), JSVal.vnum (JSNum.finite 3)])
        (List.length [JSVal.vnum (JSNum.finite 4),
          JSVal.vnum (JSNum.finite 5)]))
        [JSVal.vnum (JSNum.finite 4), JSVal.vnum (JSNum.finite 5)]] :=
  ⟨by decide,
   c6_zip_unzip_roundtrip
     [JSVal.vnum (JSNum.finite 1), JSVal.vnum (JSNum.finite 2),
       JSVal.vnum (JSNum.finite 3)]
     [JSVal.vnum (JSNum.finite 4), JSVal.vnum (JSNum.finite 5)]
     (by decide)⟩

/-- C10: passing the option object with fillValue undefined is
indistinguishable from passing no fillValue at all, for zip and hence for
zipWith: the implementation tests fillValue against undefined, so the output
length stays the shortest input's length and undefined never extends the
output to the longest input. -/
theorem c10_undefined_fillValue :
    (∀ inputs, zip inputs (some JSVal.vundef) = zip inputs none) ∧
    (∀ (R : Type) inputs (fn : List JSVal → R),
      zipWith inputs fn (some JSVal.vundef) = zipWith inputs fn none) ∧
    (∀ inputs, inputs ≠ [] →
      (zip inputs (some JSVal.vundef)).length =
        listMin (inputs.map List.length)) := by
  refine ⟨fun inputs => rfl, fun R inputs fn => rfl, ?_⟩
  intro inputs h
  rw [zip_length inputs (some JSVal.vundef) h]
  rfl

theorem c10_undefined_fillValue_witness :
    witnessInputs ≠ [] ∧
    (zip witnessInputs (some JSVal.vundef)).length =
      listMin (witnessInputs.map List.length) :=
  ⟨by simp [witnessInputs],
   c10_undefined_fillValue.2.2 witnessInputs (by simp [witnessInputs])⟩
